import Mathlib

/-
Verification of the incremental graph-delta manager of
gpmp2/planner/ISAM2TrajOptimizer-inl.h.

The C++ class ISAM2TrajOptimizer is templated over ROBOT, GP, SDF,
OBS_FACTOR and OBS_FACTOR_GP; we mirror this by parameterising the
development over abstract payload types
  P : poses, V : velocities, M : noise models, R : robot model, S : sdf.
Double-valued parameters (times, sigmas) are embedded as rationals; no
claim below depends on their numeric values, only on which parameters
each factor records.

The external iSAM2 solver is out of scope of the repository (it is
GTSAM).  Its boundary is modelled from the spec (sections 3, 6 and 8):
`update(newFactors, initialGuesses, removedIndices)` appends the new
factors to the committed store in order (so the committed size grows by
the pending-batch length), nulls the removed slots without compacting
("net +2 in raw store size if the solver does not compact on removal"),
and returns a full fresh estimate, which we model as an arbitrary
function of the committed store.  `getFactorsUnsafe().size()` is the
length of that store, nulled slots included.
-/

set_option autoImplicit false

namespace GPMP2

/-- Variable keys: gtsam::Symbol with character tag x (pose) or v
(velocity) and a time-step index. -/
inductive Key where
  | x : Nat → Key
  | v : Nat → Key
deriving DecidableEq, Repr

/-- Factors (constraints), one constructor per factor kind added by the
planner: PriorFactor over Pose, PriorFactor over Velocity, the unary
obstacle factor OBS_FACTOR, the interpolated obstacle factor
OBS_FACTOR_GP, and the GP smoothness factor. -/
inductive Factor (P V M R S : Type) where
  | priorPose (key : Key) (value : P) (model : M)
  | priorVel (key : Key) (value : V) (model : M)
  | obs (poseKey : Key) (arm : R) (sdf : S) (cost_sigma epsilon : ℚ)
  | obsGP (lastPoseKey lastVelKey poseKey velKey : Key) (arm : R) (sdf : S)
      (cost_sigma epsilon : ℚ) (qcModel : M) (delta_t tau : ℚ)
  | gp (lastPoseKey lastVelKey poseKey velKey : Key) (delta_t : ℚ) (qcModel : M)
deriving DecidableEq

/-- TrajOptimizerSetting: the fields of the configuration struct the
planner reads. -/
structure TrajOptimizerSetting (M : Type) where
  total_time : ℚ
  total_step : Nat
  obs_check_inter : Nat
  conf_prior_model : M
  vel_prior_model : M
  Qc_model : M
  cost_sigma : ℚ
  epsilon : ℚ
deriving DecidableEq

/-- gtsam::Values: a mapping from keys to pose or velocity values,
represented as an association list. -/
def Values (P V : Type) : Type := List (Key × (P ⊕ V))

instance valuesDecEq (P V : Type) [DecidableEq P] [DecidableEq V] :
    DecidableEq (Values P V) := by
  unfold Values; infer_instance

/-- The state of one ISAM2TrajOptimizer object.  `isam_` is the external
solver's committed factor store (getFactorsUnsafe()): `none` entries are
slots nulled by factor removal.  The remaining fields are the data
members of the C++ class. -/
structure ISAM2TrajOptimizer (P V M R S : Type) where
  setting_ : TrajOptimizerSetting M
  arm_ : R
  sdf_ : S
  isam_ : List (Option (Factor P V M R S))
  opt_values_ : Values P V
  inc_graph_ : List (Factor P V M R S)
  init_values_ : Values P V
  removed_factor_index_ : List Nat
  goal_conf_factor_idx_ : Nat
  goal_vel_factor_idx_ : Nat
deriving DecidableEq

variable {P V M R S : Type}

namespace ISAM2TrajOptimizer

/-- The constructor: empty solver store, empty buffers, both cached goal
factor indices initialised to 0. -/
def mkNew (arm : R) (sdf : S) (setting : TrajOptimizerSetting M) :
    ISAM2TrajOptimizer P V M R S :=
  { setting_ := setting
    arm_ := arm
    sdf_ := sdf
    isam_ := []
    opt_values_ := []
    inc_graph_ := []
    init_values_ := []
    removed_factor_index_ := []
    goal_conf_factor_idx_ := 0
    goal_vel_factor_idx_ := 0 }

/-- inc_graph_.add(f): append one factor to the pending graph. -/
def add (s : ISAM2TrajOptimizer P V M R S) (f : Factor P V M R S) :
    ISAM2TrajOptimizer P V M R S :=
  { s with inc_graph_ := s.inc_graph_ ++ [f] }

/-- One iteration i of the build loop of initFactorGraph, translated
branch by branch from the source: start priors at i = 0; goal priors at
i = total_step (with the two goal factor indices cached as
inc_graph_.size() - 1 right after each add); always one obstacle factor;
for i > 0 the interpolated obstacle factors (j = 1 .. obs_check_inter)
followed by one GP factor. -/
def initStep (start_conf : P) (start_vel : V) (goal_conf : P) (goal_vel : V)
    (s : ISAM2TrajOptimizer P V M R S) (i : Nat) :
    ISAM2TrajOptimizer P V M R S :=
  let st := s.setting_
  let delta_t : ℚ := st.total_time / (st.total_step : ℚ)
  let inter_dt : ℚ := delta_t / ((st.obs_check_inter : ℚ) + 1)
  let pose_key := Key.x i
  let vel_key := Key.v i
  let s1 :=
    if i = 0 then
      (s.add (.priorPose pose_key start_conf st.conf_prior_model)).add
        (.priorVel vel_key start_vel st.vel_prior_model)
    else if i = st.total_step then
      let sa := s.add (.priorPose pose_key goal_conf st.conf_prior_model)
      let sb := { sa with goal_conf_factor_idx_ := sa.inc_graph_.length - 1 }
      let sc := sb.add (.priorVel vel_key goal_vel st.vel_prior_model)
      { sc with goal_vel_factor_idx_ := sc.inc_graph_.length - 1 }
    else s
  let s2 := s1.add (.obs pose_key s.arm_ s.sdf_ st.cost_sigma st.epsilon)
  if 0 < i then
    let last_pose_key := Key.x (i - 1)
    let last_vel_key := Key.v (i - 1)
    let s3 :=
      if 0 < st.obs_check_inter then
        (List.range st.obs_check_inter).foldl (fun t j =>
          t.add (.obsGP last_pose_key last_vel_key pose_key vel_key s.arm_ s.sdf_
            st.cost_sigma st.epsilon st.Qc_model delta_t
            (inter_dt * (((j + 1 : Nat) : ℚ))))) s2
      else s2
    s3.add (.gp last_pose_key last_vel_key pose_key vel_key delta_t st.Qc_model)
  else s2

/-- initFactorGraph: the loop `for i = 0 .. total_step` over initStep. -/
def initFactorGraph (s : ISAM2TrajOptimizer P V M R S)
    (start_conf : P) (start_vel : V) (goal_conf : P) (goal_vel : V) :
    ISAM2TrajOptimizer P V M R S :=
  (List.range (s.setting_.total_step + 1)).foldl
    (initStep start_conf start_vel goal_conf goal_vel) s

/-- initValues: store the initial guesses. -/
def initValues (s : ISAM2TrajOptimizer P V M R S) (vals : Values P V) :
    ISAM2TrajOptimizer P V M R S :=
  { s with init_values_ := vals }

/-- Modelled from the spec: the external solver's commit step (sections
3, 6, 8 of the spec; the solver itself is not part of this repository).
Removed indices are nulled in place (no compaction, size preserved) and
the new factors are appended in order, so the committed size grows by
exactly the pending-batch length. -/
def isamCommit (store : List (Option (Factor P V M R S)))
    (newFactors : List (Factor P V M R S)) (removals : List Nat) :
    List (Option (Factor P V M R S)) :=
  (removals.foldl (fun st i => st.set i none) store) ++ newFactors.map some

/-- update(): submit the three pending collections to the solver, refresh
the estimate from the solver (`est` models calculateEstimate, an opaque
function of the committed store), then clear init_values_, inc_graph_
and removed_factor_index_. -/
def update (est : List (Option (Factor P V M R S)) → Values P V)
    (s : ISAM2TrajOptimizer P V M R S) : ISAM2TrajOptimizer P V M R S :=
  let isamNew := isamCommit s.isam_ s.inc_graph_ s.removed_factor_index_
  { s with
    isam_ := isamNew
    opt_values_ := est isamNew
    init_values_ := []
    inc_graph_ := []
    removed_factor_index_ := [] }

/-- changeGoalConfigAndVel: push the two cached goal factor indices onto
the removal list, then append the new goal pose prior and cache
isam_.getFactorsUnsafe().size() + inc_graph_.size() - 1, then the same
for the goal velocity prior. -/
def changeGoalConfigAndVel (s : ISAM2TrajOptimizer P V M R S)
    (goal_conf : P) (goal_vel : V) : ISAM2TrajOptimizer P V M R S :=
  let s1 := { s with removed_factor_index_ :=
    s.removed_factor_index_ ++ [s.goal_conf_factor_idx_, s.goal_vel_factor_idx_] }
  let s2 := s1.add (.priorPose (Key.x s.setting_.total_step) goal_conf
    s.setting_.conf_prior_model)
  let s3 := { s2 with goal_conf_factor_idx_ :=
    s2.isam_.length + s2.inc_graph_.length - 1 }
  let s4 := s3.add (.priorVel (Key.v s.setting_.total_step) goal_vel
    s.setting_.vel_prior_model)
  { s4 with goal_vel_factor_idx_ := s4.isam_.length + s4.inc_graph_.length - 1 }

/-- fixConfigAndVel: append a pose prior and a velocity prior at the
given state index.  The source performs no range check and touches no
other state. -/
def fixConfigAndVel (s : ISAM2TrajOptimizer P V M R S)
    (state_idx : Nat) (conf_fix : P) (vel_fix : V) :
    ISAM2TrajOptimizer P V M R S :=
  (s.add (.priorPose (Key.x state_idx) conf_fix s.setting_.conf_prior_model)).add
    (.priorVel (Key.v state_idx) vel_fix s.setting_.vel_prior_model)

end ISAM2TrajOptimizer

/-- Public calls that may be interleaved after the initial build:
changeGoalConfigAndVel and update. -/
inductive Op (P V : Type) where
  | changeGoal (goal_conf : P) (goal_vel : V)
  | doUpdate
deriving DecidableEq

/-- Run a sequence of interleaved changeGoal / update calls. -/
def run (est : List (Option (Factor P V M R S)) → Values P V)
    (s : ISAM2TrajOptimizer P V M R S) : List (Op P V) →
    ISAM2TrajOptimizer P V M R S
  | [] => s
  | Op.changeGoal gc gv :: rest => run est (s.changeGoalConfigAndVel gc gv) rest
  | Op.doUpdate :: rest => run est (s.update est) rest

/-- Run a sequence of interleaved calls while tracking, alongside the
state, the pair of goal factor indices most recently computed and cached
by a changeGoal call (initialised from the state the run starts in, i.e.
from the initial build). -/
def runTracked (est : List (Option (Factor P V M R S)) → Values P V)
    (s : ISAM2TrajOptimizer P V M R S) (w : Nat × Nat) : List (Op P V) →
    ISAM2TrajOptimizer P V M R S × (Nat × Nat)
  | [] => (s, w)
  | Op.changeGoal gc gv :: rest =>
      let s1 := s.changeGoalConfigAndVel gc gv
      runTracked est s1 (s1.goal_conf_factor_idx_, s1.goal_vel_factor_idx_) rest
  | Op.doUpdate :: rest => runTracked est (s.update est) w rest

/-- A Boolean trace discipline: every changeGoal call happens only when
an update has run more recently than the previous changeGoal (and, with
initial flag `false`, more recently than the initial build). -/
def committedOnly : Bool → List (Op P V) → Bool
  | _, [] => true
  | flag, Op.doUpdate :: rest => committedOnly true rest
  | flag, Op.changeGoal _ _ :: rest => flag && committedOnly false rest

/-- The factors that one iteration of the initFactorGraph loop appends,
as a plain list (derived characterisation of initStep, proved equivalent
below): start priors at i = 0, goal priors at i = total_step, one
obstacle factor always, then for i > 0 the interpolated obstacle factors
followed by the GP factor. -/
def stepBlock (st : TrajOptimizerSetting M) (arm : R) (sdf : S)
    (sc : P) (sv : V) (gc : P) (gv : V) (i : Nat) : List (Factor P V M R S) :=
  let delta_t : ℚ := st.total_time / (st.total_step : ℚ)
  let inter_dt : ℚ := delta_t / ((st.obs_check_inter : ℚ) + 1)
  (if i = 0 then
    [Factor.priorPose (Key.x i) sc st.conf_prior_model,
     Factor.priorVel (Key.v i) sv st.vel_prior_model]
   else if i = st.total_step then
    [Factor.priorPose (Key.x i) gc st.conf_prior_model,
     Factor.priorVel (Key.v i) gv st.vel_prior_model]
   else [])
  ++ [Factor.obs (Key.x i) arm sdf st.cost_sigma st.epsilon]
  ++ (if 0 < i then
       (if 0 < st.obs_check_inter then
         (List.range st.obs_check_inter).map (fun j =>
           Factor.obsGP (Key.x (i - 1)) (Key.v (i - 1)) (Key.x i) (Key.v i)
             arm sdf st.cost_sigma st.epsilon st.Qc_model delta_t
             (inter_dt * (((j + 1 : Nat) : ℚ))))
        else [])
       ++ [Factor.gp (Key.x (i - 1)) (Key.v (i - 1)) (Key.x i) (Key.v i)
            delta_t st.Qc_model]
      else [])

/-- Does this factor match a PriorFactor on the pose key of step n? -/
def isPosePriorAt (n : Nat) : Factor P V M R S → Bool
  | .priorPose (Key.x m) _ _ => m == n
  | _ => false

/-- Does this factor match a PriorFactor on the velocity key of step n? -/
def isVelPriorAt (n : Nat) : Factor P V M R S → Bool
  | .priorVel (Key.v m) _ _ => m == n
  | _ => false

/-- Does this factor match either prior of step n? -/
def isPriorAt (n : Nat) (f : Factor P V M R S) : Bool :=
  isPosePriorAt n f || isVelPriorAt n f

/-- Is this an OBS_FACTOR (unary obstacle factor)? -/
def isObsF : Factor P V M R S → Bool
  | .obs _ _ _ _ _ => true
  | _ => false

/-- Is this an OBS_FACTOR_GP (interpolated obstacle factor)? -/
def isObsGPF : Factor P V M R S → Bool
  | .obsGP _ _ _ _ _ _ _ _ _ _ _ => true
  | _ => false

/-- Is this a GP smoothness factor? -/
def isGPF : Factor P V M R S → Bool
  | .gp _ _ _ _ _ _ => true
  | _ => false

/- Concrete instantiation used for witnesses and counterexamples: all
payload types are Unit, one trajectory step, no interpolated checks. -/

/-- A concrete setting: one step, no interpolated obstacle checks. -/
def unitSetting : TrajOptimizerSetting Unit :=
  { total_time := 1, total_step := 1, obs_check_inter := 0,
    conf_prior_model := (), vel_prior_model := (), Qc_model := (),
    cost_sigma := 1, epsilon := 1 }

/-- A concrete opaque-estimator stand-in for calculateEstimate. -/
def estNil : List (Option (Factor Unit Unit Unit Unit Unit)) → Values Unit Unit :=
  fun _ => []

/-- The concrete optimizer state right after the initial build. -/
def builtUnit : ISAM2TrajOptimizer Unit Unit Unit Unit Unit :=
  (ISAM2TrajOptimizer.mkNew () () unitSetting).initFactorGraph () () () ()

/-- A concrete setting with zero steps (malformed per the spec). -/
def zeroSetting : TrajOptimizerSetting Unit :=
  { unitSetting with total_step := 0 }

/-- Result of initFactorGraph on the zero-step setting. -/
def builtZero : ISAM2TrajOptimizer Unit Unit Unit Unit Unit :=
  (ISAM2TrajOptimizer.mkNew () () zeroSetting).initFactorGraph () () () ()

/-- A concrete setting with two steps and one interpolated check. -/
def twoSetting : TrajOptimizerSetting Unit :=
  { total_time := 1, total_step := 2, obs_check_inter := 1,
    conf_prior_model := (), vel_prior_model := (), Qc_model := (),
    cost_sigma := 1, epsilon := 1 }

/-- The concrete two-step optimizer state right after the initial
build. -/
def builtTwo : ISAM2TrajOptimizer Unit Unit Unit Unit Unit :=
  (ISAM2TrajOptimizer.mkNew () () twoSetting).initFactorGraph () () () ()

/-- The concrete state reached from the built one-step trajectory by an
update followed by two changeGoal calls: the state at which the next
update() would execute. -/
def doubleChangeGoalState : ISAM2TrajOptimizer Unit Unit Unit Unit Unit :=
  run estNil builtUnit [Op.doUpdate, Op.changeGoal () (), Op.changeGoal () ()]

namespace ISAM2TrajOptimizer

/-- C1: after changeGoalConfigAndVel, the pending graph has gained the
goal pose prior then the goal velocity prior, and each cached index was
overwritten with committed-store size + pending length - 1 right after
the corresponding append; equivalently each cached index is the
committed-store size plus that constraint's position inside the pending
graph (the pose prior sits at position `s.inc_graph_.length`, the
velocity prior right after it). -/
theorem changeGoal_caches_future_committed_indices
    (s : ISAM2TrajOptimizer P V M R S) (gc : P) (gv : V) :
    (s.changeGoalConfigAndVel gc gv).inc_graph_ =
      s.inc_graph_ ++
        [Factor.priorPose (Key.x s.setting_.total_step) gc s.setting_.conf_prior_model,
         Factor.priorVel (Key.v s.setting_.total_step) gv s.setting_.vel_prior_model] ∧
    (s.changeGoalConfigAndVel gc gv).goal_conf_factor_idx_ =
      s.isam_.length + (s.inc_graph_.length + 1) - 1 ∧
    (s.changeGoalConfigAndVel gc gv).goal_conf_factor_idx_ =
      s.isam_.length + s.inc_graph_.length ∧
    (s.changeGoalConfigAndVel gc gv).goal_vel_factor_idx_ =
      s.isam_.length + (s.inc_graph_.length + 2) - 1 ∧
    (s.changeGoalConfigAndVel gc gv).goal_vel_factor_idx_ =
      s.isam_.length + (s.inc_graph_.length + 1) := by
  refine ⟨?_, ?_, ?_, ?_, ?_⟩ <;>
    simp [changeGoalConfigAndVel, add] <;> omega

/-- C10: changeGoalConfigAndVel leaves the pending initial-guess map,
the cached estimate, the committed solver store and the configuration
fields untouched; only the pending graph, the removal list and the two
cached goal indices change. -/
theorem changeGoal_frame (s : ISAM2TrajOptimizer P V M R S) (gc : P) (gv : V) :
    (s.changeGoalConfigAndVel gc gv).init_values_ = s.init_values_ ∧
    (s.changeGoalConfigAndVel gc gv).opt_values_ = s.opt_values_ ∧
    (s.changeGoalConfigAndVel gc gv).isam_ = s.isam_ ∧
    (s.changeGoalConfigAndVel gc gv).setting_ = s.setting_ ∧
    (s.changeGoalConfigAndVel gc gv).arm_ = s.arm_ ∧
    (s.changeGoalConfigAndVel gc gv).sdf_ = s.sdf_ := by
  refine ⟨?_, ?_, ?_, ?_, ?_, ?_⟩ <;> simp [changeGoalConfigAndVel, add]

/-- C5: after update(), the pending graph, the pending initial guesses
and the pending removal list are all empty. -/
theorem update_clears_pending
    (est : List (Option (Factor P V M R S)) → Values P V)
    (s : ISAM2TrajOptimizer P V M R S) :
    (s.update est).inc_graph_ = [] ∧
    (s.update est).init_values_ = [] ∧
    (s.update est).removed_factor_index_ = [] :=
  ⟨rfl, rfl, rfl⟩

/-- C9: for an in-range step index, fixConfigAndVel appends exactly the
pose prior then the velocity prior at that step's keys (with the
configured prior noise models) to the pending graph, and every other
field of the state — removals, cached goal indices, pending values,
estimate, solver store, configuration — is unchanged. -/
theorem fix_appends_two_priors_only
    (s : ISAM2TrajOptimizer P V M R S) (i : Nat) (c : P) (v : V)
    (h : i ≤ s.setting_.total_step) :
    s.fixConfigAndVel i c v =
      { s with inc_graph_ := s.inc_graph_ ++
          [Factor.priorPose (Key.x i) c s.setting_.conf_prior_model,
           Factor.priorVel (Key.v i) v s.setting_.vel_prior_model] } := by
  simp [fixConfigAndVel, add]

/-- Witness for C9 at the concrete built state with step index 1. -/
theorem fix_appends_two_priors_only_witness :
    (1 ≤ builtUnit.setting_.total_step) ∧
    builtUnit.fixConfigAndVel 1 () () =
      { builtUnit with inc_graph_ := builtUnit.inc_graph_ ++
          [Factor.priorPose (Key.x 1) () builtUnit.setting_.conf_prior_model,
           Factor.priorVel (Key.v 1) () builtUnit.setting_.vel_prior_model] } :=
  ⟨by decide, fix_appends_two_priors_only builtUnit 1 () () (by decide)⟩

/-- C6 counterexample: calling fixConfigAndVel with step index 2 on the
built one-step trajectory (so 2 is out of range) does mutate the state —
the pending graph grows from 7 to 9 factors — refuting the claim that an
out-of-range call leaves all state unmutated (the source performs no
range check and signals nothing). -/
theorem fix_out_of_range_mutates :
    (1 < (2 : Nat) ∧ builtUnit.setting_.total_step = 1) ∧
    (builtUnit.fixConfigAndVel 2 () ()).inc_graph_.length = 9 ∧
    builtUnit.inc_graph_.length = 7 ∧
    builtUnit.fixConfigAndVel 2 () () ≠ builtUnit := by
  refine ⟨by decide, by decide, by decide, fun h => ?_⟩
  have h2 := congrArg (fun t => t.inc_graph_.length) h
  simp only at h2
  have h3 : (builtUnit.fixConfigAndVel 2 () ()).inc_graph_.length = 9 := by decide
  have h4 : builtUnit.inc_graph_.length = 7 := by decide
  omega

/-- C6 amended: fixConfigAndVel performs no range validation: for every
step index, in range or not, it appends the pose and velocity priors at
that index to the pending graph and leaves every other field unchanged;
no InvalidArgument condition is signalled. -/
theorem fix_no_range_check
    (s : ISAM2TrajOptimizer P V M R S) (i : Nat) (c : P) (v : V) :
    s.fixConfigAndVel i c v =
      { s with inc_graph_ := s.inc_graph_ ++
          [Factor.priorPose (Key.x i) c s.setting_.conf_prior_model,
           Factor.priorVel (Key.v i) v s.setting_.vel_prior_model] } := by
  simp [fixConfigAndVel, add]

/-- C7 counterexample: with the zero-step setting, initFactorGraph does
not fail and does not reject the setting before building constraints: it
appends three constraints to the pending buffer, refuting the claim that
the build fails without adding any constraint. -/
theorem zero_steps_not_rejected :
    zeroSetting.total_step = 0 ∧
    builtZero.inc_graph_.length = 3 ∧
    ¬ (builtZero.inc_graph_ = []) := by decide

/-- C7 amended: initFactorGraph performs no validation of the setting:
with total_step = 0 the build loop still runs its single iteration (i =
0) and appends exactly the start pose prior, the start velocity prior
and one obstacle factor; no error is signalled and all other state is
left as constructed. -/
theorem initFactorGraph_zero_steps_builds_three
    (st : TrajOptimizerSetting M) (arm : R) (sdf : S)
    (sc : P) (sv : V) (gc : P) (gv : V) (h : st.total_step = 0) :
    (mkNew arm sdf st).initFactorGraph sc sv gc gv =
      { mkNew arm sdf st with inc_graph_ :=
          [Factor.priorPose (Key.x 0) sc st.conf_prior_model,
           Factor.priorVel (Key.v 0) sv st.vel_prior_model,
           Factor.obs (Key.x 0) arm sdf st.cost_sigma st.epsilon] } := by
  simp [initFactorGraph, mkNew, h, initStep, add, List.range_succ]

/-- Witness for the amended C7 at the concrete zero-step setting. -/
theorem initFactorGraph_zero_steps_builds_three_witness :
    zeroSetting.total_step = 0 ∧
    (mkNew () () zeroSetting).initFactorGraph () () () () =
      { mkNew () () zeroSetting with inc_graph_ :=
          [Factor.priorPose (Key.x 0) () zeroSetting.conf_prior_model,
           Factor.priorVel (Key.v 0) () zeroSetting.vel_prior_model,
           Factor.obs (Key.x 0) () () zeroSetting.cost_sigma zeroSetting.epsilon] } :=
  ⟨by decide, initFactorGraph_zero_steps_builds_three zeroSetting () () () () () () (by decide)⟩

/-- C3 counterexample: after build, update, and two changeGoal calls
(a reachable state at which the next update() executes), the pending
removal list is [3, 4, 7, 8] while the committed store holds 7 factors:
the indices 7 and 8 pushed by the second changeGoal refer to the two
goal priors appended by the first changeGoal, which still sit in the
same pending batch — refuting the claim that removal targets always
refer to constraints committed by a previous update. -/
theorem removals_can_reference_pending_batch :
    doubleChangeGoalState.removed_factor_index_ = [3, 4, 7, 8] ∧
    doubleChangeGoalState.isam_.length = 7 ∧
    doubleChangeGoalState.inc_graph_.length = 4 ∧
    ¬ (∀ i ∈ doubleChangeGoalState.removed_factor_index_,
        i < doubleChangeGoalState.isam_.length) := by decide

/- Characterisation of the build loop: each iteration appends the step
block of factors and, at the goal step, caches the positions of the two
goal priors. -/

theorem foldl_add_eq (f : Nat → Factor P V M R S) :
    ∀ (l : List Nat) (s : ISAM2TrajOptimizer P V M R S),
    l.foldl (fun t j => t.add (f j)) s =
      { s with inc_graph_ := s.inc_graph_ ++ l.map f } := by
  intro l
  induction l with
  | nil => intro s; simp
  | cons a l ih =>
      intro s
      rw [List.foldl_cons, ih]
      simp [add]

theorem initStep_eq (sc : P) (sv : V) (gc : P) (gv : V)
    (s : ISAM2TrajOptimizer P V M R S) (i : Nat) :
    initStep sc sv gc gv s i =
      { s with
        inc_graph_ := s.inc_graph_ ++ stepBlock s.setting_ s.arm_ s.sdf_ sc sv gc gv i,
        goal_conf_factor_idx_ :=
          if i ≠ 0 ∧ i = s.setting_.total_step then s.inc_graph_.length
          else s.goal_conf_factor_idx_,
        goal_vel_factor_idx_ :=
          if i ≠ 0 ∧ i = s.setting_.total_step then s.inc_graph_.length + 1
          else s.goal_vel_factor_idx_ } := by
  by_cases h0 : i = 0
  · subst h0
    simp [initStep, stepBlock, add]
  · have hpos : 0 < i := Nat.pos_of_ne_zero h0
    by_cases hN : i = s.setting_.total_step
    · subst hN
      by_cases hI : 0 < s.setting_.obs_check_inter
      · simp only [initStep, stepBlock, foldl_add_eq, if_neg h0, if_pos hpos,
          if_pos hI]
        simp [add, List.append_assoc, h0]
      · simp only [initStep, stepBlock, foldl_add_eq, if_neg h0, if_pos hpos,
          if_neg hI]
        simp [add, List.append_assoc, h0]
    · by_cases hI : 0 < s.setting_.obs_check_inter
      · simp only [initStep, stepBlock, foldl_add_eq, if_neg h0, if_neg hN,
          if_pos hpos, if_pos hI]
        simp [add, List.append_assoc, h0, hN]
      · simp only [initStep, stepBlock, foldl_add_eq, if_neg h0, if_neg hN,
          if_pos hpos, if_neg hI]
        simp [add, List.append_assoc, h0, hN]

theorem foldl_initStep_misc (sc : P) (sv : V) (gc : P) (gv : V) :
    ∀ (l : List Nat) (s : ISAM2TrajOptimizer P V M R S),
    (l.foldl (initStep sc sv gc gv) s).setting_ = s.setting_ ∧
    (l.foldl (initStep sc sv gc gv) s).arm_ = s.arm_ ∧
    (l.foldl (initStep sc sv gc gv) s).sdf_ = s.sdf_ ∧
    (l.foldl (initStep sc sv gc gv) s).isam_ = s.isam_ ∧
    (l.foldl (initStep sc sv gc gv) s).opt_values_ = s.opt_values_ ∧
    (l.foldl (initStep sc sv gc gv) s).init_values_ = s.init_values_ ∧
    (l.foldl (initStep sc sv gc gv) s).removed_factor_index_ =
      s.removed_factor_index_ := by
  intro l
  induction l with
  | nil => intro s; simp
  | cons a l ih =>
      intro s
      simp only [List.foldl_cons]
      rw [initStep_eq]
      exact ih _

theorem foldl_initStep_graph (sc : P) (sv : V) (gc : P) (gv : V) :
    ∀ (l : List Nat) (s : ISAM2TrajOptimizer P V M R S),
    (l.foldl (initStep sc sv gc gv) s).inc_graph_ =
      s.inc_graph_ ++ l.flatMap (stepBlock s.setting_ s.arm_ s.sdf_ sc sv gc gv) := by
  intro l
  induction l with
  | nil => intro s; simp
  | cons a l ih =>
      intro s
      simp only [List.foldl_cons]
      rw [initStep_eq]
      rw [ih]
      simp [List.flatMap_cons, List.append_assoc]

theorem foldl_initStep_caches (sc : P) (sv : V) (gc : P) (gv : V) :
    ∀ (l : List Nat) (s : ISAM2TrajOptimizer P V M R S),
    (∀ i ∈ l, i = 0 ∨ i ≠ s.setting_.total_step) →
    (l.foldl (initStep sc sv gc gv) s).goal_conf_factor_idx_ =
      s.goal_conf_factor_idx_ ∧
    (l.foldl (initStep sc sv gc gv) s).goal_vel_factor_idx_ =
      s.goal_vel_factor_idx_ := by
  intro l
  induction l with
  | nil => intro s _; exact ⟨rfl, rfl⟩
  | cons a l ih =>
      intro s hl
      simp only [List.foldl_cons]
      rw [initStep_eq]
      have ha : ¬ (a ≠ 0 ∧ a = s.setting_.total_step) := by
        rcases hl a (List.mem_cons_self a l) with h | h
        · simp [h]
        · simp [h]
      have := ih ({ s with
        inc_graph_ := s.inc_graph_ ++ stepBlock s.setting_ s.arm_ s.sdf_ sc sv gc gv a,
        goal_conf_factor_idx_ :=
          if a ≠ 0 ∧ a = s.setting_.total_step then s.inc_graph_.length
          else s.goal_conf_factor_idx_,
        goal_vel_factor_idx_ :=
          if a ≠ 0 ∧ a = s.setting_.total_step then s.inc_graph_.length + 1
          else s.goal_vel_factor_idx_ }) (by
        intro i hi
        exact hl i (List.mem_cons_of_mem a hi))
      rw [this.1, this.2]
      simp [ha]

theorem stepBlock_goal (st : TrajOptimizerSetting M) (arm : R) (sdf : S)
    (sc : P) (sv : V) (gc : P) (gv : V) (i : Nat)
    (h0 : i ≠ 0) (hN : i = st.total_step) :
    stepBlock st arm sdf sc sv gc gv i =
      Factor.priorPose (Key.x i) gc st.conf_prior_model ::
      Factor.priorVel (Key.v i) gv st.vel_prior_model ::
      Factor.obs (Key.x i) arm sdf st.cost_sigma st.epsilon ::
      ((if 0 < st.obs_check_inter then
          (List.range st.obs_check_inter).map (fun j =>
            Factor.obsGP (Key.x (i - 1)) (Key.v (i - 1)) (Key.x i) (Key.v i)
              arm sdf st.cost_sigma st.epsilon st.Qc_model
              (st.total_time / (st.total_step : ℚ))
              ((st.total_time / (st.total_step : ℚ)) /
                  ((st.obs_check_inter : ℚ) + 1) * (((j + 1 : Nat) : ℚ))))
        else []) ++
       [Factor.gp (Key.x (i - 1)) (Key.v (i - 1)) (Key.x i) (Key.v i)
          (st.total_time / (st.total_step : ℚ)) st.Qc_model]) := by
  subst hN
  simp [stepBlock, h0, Nat.pos_of_ne_zero h0]

/-- The state after the initial build on a freshly constructed
optimizer, for a positive step count: the pending graph is the
concatenation of the per-step blocks, the cached goal indices are the
length of the blocks before the goal step (i.e. the positions of the
two goal priors), and everything else is as constructed. -/
theorem initFactorGraph_built (st : TrajOptimizerSetting M) (arm : R) (sdf : S)
    (sc : P) (sv : V) (gc : P) (gv : V) (h : 1 ≤ st.total_step) :
    ((mkNew arm sdf st).initFactorGraph sc sv gc gv).inc_graph_ =
      (List.range st.total_step).flatMap (stepBlock st arm sdf sc sv gc gv) ++
        stepBlock st arm sdf sc sv gc gv st.total_step ∧
    ((mkNew arm sdf st).initFactorGraph sc sv gc gv).goal_conf_factor_idx_ =
      ((List.range st.total_step).flatMap (stepBlock st arm sdf sc sv gc gv)).length ∧
    ((mkNew arm sdf st).initFactorGraph sc sv gc gv).goal_vel_factor_idx_ =
      ((List.range st.total_step).flatMap (stepBlock st arm sdf sc sv gc gv)).length + 1 := by
  have hrange : List.range (st.total_step + 1) =
      List.range st.total_step ++ [st.total_step] := List.range_succ st.total_step
  have hmisc := foldl_initStep_misc sc sv gc gv (List.range st.total_step)
    (mkNew arm sdf st)
  have hgraph := foldl_initStep_graph sc sv gc gv (List.range st.total_step)
    (mkNew arm sdf st)
  have hcache := foldl_initStep_caches sc sv gc gv (List.range st.total_step)
    (mkNew arm sdf st) (by
      intro i hi
      right
      have : i < st.total_step := List.mem_range.mp hi
      simp [mkNew]
      omega)
  set pre := (List.range st.total_step).foldl (initStep sc sv gc gv)
    (mkNew arm sdf st) with hpre
  have hfold : (mkNew arm sdf st).initFactorGraph sc sv gc gv =
      initStep sc sv gc gv pre st.total_step := by
    rw [initFactorGraph]
    show (List.range ((mkNew arm sdf st (P := P) (V := V)).setting_.total_step + 1)).foldl
      (initStep sc sv gc gv) (mkNew arm sdf st) = _
    rw [show (mkNew arm sdf st (P := P) (V := V)).setting_ = st from rfl, hrange,
      List.foldl_append]
    simp
  have hsetting : pre.setting_ = st := by
    rw [hmisc.1]; rfl
  have hNe : ¬ st.total_step = 0 := by omega
  have hcond : (st.total_step ≠ 0 ∧ st.total_step = pre.setting_.total_step) := by
    refine ⟨hNe, ?_⟩
    rw [hsetting]
  have harm : pre.arm_ = arm := by rw [hmisc.2.1]; rfl
  have hsdf : pre.sdf_ = sdf := by rw [hmisc.2.2.1]; rfl
  have hpreg : pre.inc_graph_ =
      (List.range st.total_step).flatMap (stepBlock st arm sdf sc sv gc gv) := by
    rw [hgraph]; simp [mkNew]
  rw [hfold, initStep_eq]
  refine ⟨?_, ?_, ?_⟩
  · show pre.inc_graph_ ++
        stepBlock pre.setting_ pre.arm_ pre.sdf_ sc sv gc gv st.total_step = _
    rw [hpreg, hsetting, harm, hsdf]
  · show (if st.total_step ≠ 0 ∧ st.total_step = pre.setting_.total_step then
        pre.inc_graph_.length else pre.goal_conf_factor_idx_) = _
    rw [if_pos hcond, hpreg]
  · show (if st.total_step ≠ 0 ∧ st.total_step = pre.setting_.total_step then
        pre.inc_graph_.length + 1 else pre.goal_vel_factor_idx_) = _
    rw [if_pos hcond, hpreg]

/- Projection helpers for changeGoalConfigAndVel and update. -/

theorem changeGoal_removed (s : ISAM2TrajOptimizer P V M R S) (gc : P) (gv : V) :
    (s.changeGoalConfigAndVel gc gv).removed_factor_index_ =
      s.removed_factor_index_ ++
        [s.goal_conf_factor_idx_, s.goal_vel_factor_idx_] := by
  simp [changeGoalConfigAndVel, add]

theorem changeGoal_isam (s : ISAM2TrajOptimizer P V M R S) (gc : P) (gv : V) :
    (s.changeGoalConfigAndVel gc gv).isam_ = s.isam_ := rfl

theorem changeGoal_graph_length (s : ISAM2TrajOptimizer P V M R S)
    (gc : P) (gv : V) :
    (s.changeGoalConfigAndVel gc gv).inc_graph_.length =
      s.inc_graph_.length + 2 := by
  simp [changeGoalConfigAndVel, add]

theorem changeGoal_gci (s : ISAM2TrajOptimizer P V M R S) (gc : P) (gv : V) :
    (s.changeGoalConfigAndVel gc gv).goal_conf_factor_idx_ =
      s.isam_.length + s.inc_graph_.length := by
  simp [changeGoalConfigAndVel, add]

theorem changeGoal_gvi (s : ISAM2TrajOptimizer P V M R S) (gc : P) (gv : V) :
    (s.changeGoalConfigAndVel gc gv).goal_vel_factor_idx_ =
      s.isam_.length + s.inc_graph_.length + 1 := by
  simp [changeGoalConfigAndVel, add]
  omega

theorem foldl_set_length :
    ∀ (rem : List Nat) (store : List (Option (Factor P V M R S))),
    (rem.foldl (fun acc i => acc.set i none) store).length = store.length := by
  intro rem
  induction rem with
  | nil => intro store; rfl
  | cons a rem ih =>
      intro store
      rw [List.foldl_cons, ih, List.length_set]

theorem isamCommit_length (store : List (Option (Factor P V M R S)))
    (newFactors : List (Factor P V M R S)) (rem : List Nat) :
    (isamCommit store newFactors rem).length =
      store.length + newFactors.length := by
  simp [isamCommit, foldl_set_length]

/-- The most-recently-cached tracker of runTracked always coincides with
the cached goal indices of the state it runs alongside, as long as it is
seeded with them. -/
theorem runTracked_snd_eq_caches
    (est : List (Option (Factor P V M R S)) → Values P V) :
    ∀ (ops : List (Op P V)) (s : ISAM2TrajOptimizer P V M R S) (w : Nat × Nat),
    w = (s.goal_conf_factor_idx_, s.goal_vel_factor_idx_) →
    (runTracked est s w ops).2 =
      ((runTracked est s w ops).1.goal_conf_factor_idx_,
       (runTracked est s w ops).1.goal_vel_factor_idx_) := by
  intro ops
  induction ops with
  | nil => intro s w hw; simpa [runTracked] using hw
  | cons op rest ih =>
      cases op with
      | changeGoal gc gv =>
          intro s w hw
          simp only [runTracked]
          exact ih _ _ rfl
      | doUpdate =>
          intro s w hw
          simp only [runTracked]
          exact ih _ _ hw

/-- C2: starting from the initial build and running any interleaving of
changeGoal and update calls, a further changeGoal call pushes onto the
removal list exactly two indices — the cached goal-pose index first,
then the cached goal-velocity index — and that pair is precisely the
pair most recently computed and cached by the prior changeGoal call (or
by the initial build, tracked by the second component of runTracked). -/
theorem changeGoal_pushes_most_recently_cached
    (est : List (Option (Factor P V M R S)) → Values P V)
    (st : TrajOptimizerSetting M) (arm : R) (sdf : S)
    (sc : P) (sv : V) (gc0 : P) (gv0 : V)
    (ops : List (Op P V)) (gc : P) (gv : V) :
    ((runTracked est ((mkNew arm sdf st).initFactorGraph sc sv gc0 gv0)
        (((mkNew arm sdf st).initFactorGraph sc sv gc0 gv0).goal_conf_factor_idx_,
         ((mkNew arm sdf st).initFactorGraph sc sv gc0 gv0).goal_vel_factor_idx_)
        ops).1.changeGoalConfigAndVel gc gv).removed_factor_index_ =
      (runTracked est ((mkNew arm sdf st).initFactorGraph sc sv gc0 gv0)
        (((mkNew arm sdf st).initFactorGraph sc sv gc0 gv0).goal_conf_factor_idx_,
         ((mkNew arm sdf st).initFactorGraph sc sv gc0 gv0).goal_vel_factor_idx_)
        ops).1.removed_factor_index_ ++
        [(runTracked est ((mkNew arm sdf st).initFactorGraph sc sv gc0 gv0)
            (((mkNew arm sdf st).initFactorGraph sc sv gc0 gv0).goal_conf_factor_idx_,
             ((mkNew arm sdf st).initFactorGraph sc sv gc0 gv0).goal_vel_factor_idx_)
            ops).2.1,
         (runTracked est ((mkNew arm sdf st).initFactorGraph sc sv gc0 gv0)
            (((mkNew arm sdf st).initFactorGraph sc sv gc0 gv0).goal_conf_factor_idx_,
             ((mkNew arm sdf st).initFactorGraph sc sv gc0 gv0).goal_vel_factor_idx_)
            ops).2.2] := by
  have h := runTracked_snd_eq_caches est ops
    ((mkNew arm sdf st).initFactorGraph sc sv gc0 gv0) _ rfl
  rw [changeGoal_removed, h]

/-- Trace invariant: under the discipline that a changeGoal call only
happens right after an update (flag true), every pending removal index
stays below the committed-store size. -/
theorem run_removals_lt_committed
    (est : List (Option (Factor P V M R S)) → Values P V) :
    ∀ (ops : List (Op P V)) (flag : Bool) (s : ISAM2TrajOptimizer P V M R S),
    committedOnly flag ops = true →
    (∀ i ∈ s.removed_factor_index_, i < s.isam_.length) →
    s.goal_conf_factor_idx_ < s.isam_.length + s.inc_graph_.length →
    s.goal_vel_factor_idx_ < s.isam_.length + s.inc_graph_.length →
    (flag = true → s.goal_conf_factor_idx_ < s.isam_.length ∧
      s.goal_vel_factor_idx_ < s.isam_.length) →
    ∀ i ∈ (run est s ops).removed_factor_index_,
      i < (run est s ops).isam_.length := by
  intro ops
  induction ops with
  | nil =>
      intro flag s _ hrem _ _ _
      simpa [run] using hrem
  | cons op rest ih =>
      cases op with
      | doUpdate =>
          intro flag s hops hrem hgc hgv _
          have hlen : (s.update est).isam_.length =
              s.isam_.length + s.inc_graph_.length := by
            simp [update, isamCommit_length]
          simp only [run]
          refine ih true (s.update est) (by simpa [committedOnly] using hops)
            ?_ ?_ ?_ ?_
          · intro i hi
            exact absurd hi (by simp [update])
          · show s.goal_conf_factor_idx_ <
              (s.update est).isam_.length + ([] : List (Factor P V M R S)).length
            rw [hlen]
            simpa using hgc
          · show s.goal_vel_factor_idx_ <
              (s.update est).isam_.length + ([] : List (Factor P V M R S)).length
            rw [hlen]
            simpa using hgv
          · intro _
            constructor
            · show s.goal_conf_factor_idx_ < (s.update est).isam_.length
              rw [hlen]; exact hgc
            · show s.goal_vel_factor_idx_ < (s.update est).isam_.length
              rw [hlen]; exact hgv
      | changeGoal gc gv =>
          intro flag s hops hrem hgc hgv hflag
          have hsplit : flag = true ∧ committedOnly false rest = true := by
            simpa [committedOnly, Bool.and_eq_true] using hops
          obtain ⟨hgci, hgvi⟩ := hflag hsplit.1
          simp only [run]
          refine ih false (s.changeGoalConfigAndVel gc gv) hsplit.2
            ?_ ?_ ?_ (by simp)
          · intro i hi
            rw [changeGoal_removed] at hi
            rw [changeGoal_isam]
            rcases List.mem_append.mp hi with hmem | hmem
            · exact hrem i hmem
            · rcases List.mem_cons.mp hmem with hc | hc
              · subst hc; exact hgci
              · have : i = s.goal_vel_factor_idx_ := by simpa using hc
                subst this; exact hgvi
          · rw [changeGoal_gci, changeGoal_isam, changeGoal_graph_length]
            omega
          · rw [changeGoal_gvi, changeGoal_isam, changeGoal_graph_length]
            omega

/-- The built state has empty removal list and empty committed store,
and its cached goal indices are strictly below the pending graph
length. -/
theorem built_invariant (st : TrajOptimizerSetting M) (arm : R) (sdf : S)
    (sc : P) (sv : V) (gc : P) (gv : V) :
    ((mkNew arm sdf st).initFactorGraph sc sv gc gv).removed_factor_index_ = [] ∧
    ((mkNew arm sdf st).initFactorGraph sc sv gc gv).isam_ = [] ∧
    ((mkNew arm sdf st).initFactorGraph sc sv gc gv).goal_conf_factor_idx_ <
      ((mkNew arm sdf st).initFactorGraph sc sv gc gv).inc_graph_.length ∧
    ((mkNew arm sdf st).initFactorGraph sc sv gc gv).goal_vel_factor_idx_ <
      ((mkNew arm sdf st).initFactorGraph sc sv gc gv).inc_graph_.length := by
  have hmisc := foldl_initStep_misc sc sv gc gv
    (List.range (st.total_step + 1)) (mkNew arm sdf st)
  have hgraph := foldl_initStep_graph sc sv gc gv
    (List.range (st.total_step + 1)) (mkNew arm sdf st)
  refine ⟨hmisc.2.2.2.2.2.2, hmisc.2.2.2.1, ?_⟩
  by_cases hN : st.total_step = 0
  · have hc := foldl_initStep_caches sc sv gc gv
      (List.range (st.total_step + 1)) (mkNew arm sdf st) (by
        intro i hi
        left
        have := List.mem_range.mp hi
        omega)
    have hgci : ((mkNew arm sdf st).initFactorGraph sc sv gc gv).goal_conf_factor_idx_ = 0 :=
      hc.1
    have hgvi : ((mkNew arm sdf st).initFactorGraph sc sv gc gv).goal_vel_factor_idx_ = 0 :=
      hc.2
    have hlen : 0 < ((mkNew arm sdf st).initFactorGraph sc sv gc gv).inc_graph_.length := by
      have : ((mkNew arm sdf st).initFactorGraph sc sv gc gv).inc_graph_ =
          (List.range (st.total_step + 1)).flatMap
            (stepBlock st arm sdf sc sv gc gv) := by
        rw [show ((mkNew arm sdf st).initFactorGraph sc sv gc gv).inc_graph_ =
          ((List.range (st.total_step + 1)).foldl (initStep sc sv gc gv)
            (mkNew arm sdf st)).inc_graph_ from rfl, hgraph]
        simp [mkNew]
      rw [this, hN]
      simp [List.range_succ, stepBlock]
    omega
  · have h1 : 1 ≤ st.total_step := by omega
    have hb := initFactorGraph_built st arm sdf sc sv gc gv h1
    have hblock := stepBlock_goal st arm sdf sc sv gc gv st.total_step hN rfl
    have hlen : ((mkNew arm sdf st).initFactorGraph sc sv gc gv).inc_graph_.length =
        ((List.range st.total_step).flatMap
          (stepBlock st arm sdf sc sv gc gv)).length +
          (stepBlock st arm sdf sc sv gc gv st.total_step).length := by
      rw [hb.1, List.length_append]
    have hblen : 3 ≤ (stepBlock st arm sdf sc sv gc gv st.total_step).length := by
      rw [hblock]
      simp
    rw [hb.2.1, hb.2.2, hlen]
    omega

/-- C3 amended: starting from the initial build, for any interleaving of
changeGoal and update calls in which every changeGoal happens only when
an update has run more recently than the previous changeGoal (and more
recently than the build itself), every index in the pending removal list
refers to a constraint already committed to the solver store by a
previous update — it is strictly below the committed-store size, in
every reachable state and in particular at the moment any update
executes. -/
theorem disciplined_removals_reference_committed
    (est : List (Option (Factor P V M R S)) → Values P V)
    (st : TrajOptimizerSetting M) (arm : R) (sdf : S)
    (sc : P) (sv : V) (gc : P) (gv : V) (ops : List (Op P V))
    (hops : committedOnly false ops = true) :
    ∀ i ∈ (run est ((mkNew arm sdf st).initFactorGraph sc sv gc gv)
        ops).removed_factor_index_,
      i < (run est ((mkNew arm sdf st).initFactorGraph sc sv gc gv)
        ops).isam_.length := by
  have hb := built_invariant st arm sdf sc sv gc gv
  refine run_removals_lt_committed est ops false
    ((mkNew arm sdf st).initFactorGraph sc sv gc gv) hops ?_ ?_ ?_ (by simp)
  · intro i hi
    rw [hb.1] at hi
    exact absurd hi (List.not_mem_nil i)
  · rw [hb.2.1]
    simpa using hb.2.2.1
  · rw [hb.2.1]
    simpa using hb.2.2.2

/- Counting and position lemmas for the initial build. -/

theorem countP_comp_false {A B : Type} (f : A → B) (p : B → Bool)
    (l : List A) (h : ∀ a, p (f a) = false) : l.countP (p ∘ f) = 0 := by
  induction l with
  | nil => rfl
  | cons a l ih => simp [List.countP_cons, Function.comp, h, ih]

theorem countP_comp_true {A B : Type} (f : A → B) (p : B → Bool)
    (l : List A) (h : ∀ a, p (f a) = true) :
    l.countP (p ∘ f) = l.length := by
  induction l with
  | nil => rfl
  | cons a l ih => simp [List.countP_cons, Function.comp, h, ih]

theorem countP_stepBlock_obs (st : TrajOptimizerSetting M) (arm : R) (sdf : S)
    (sc : P) (sv : V) (gc : P) (gv : V) (i : Nat) :
    (stepBlock st arm sdf sc sv gc gv i).countP isObsF = 1 := by
  by_cases h0 : i = 0
  · subst h0
    simp [stepBlock, List.countP_append, List.countP_cons, isObsF]
  · have hpos : 0 < i := Nat.pos_of_ne_zero h0
    by_cases hN : i = st.total_step
    · subst hN
      by_cases hI : 0 < st.obs_check_inter <;>
        simp [stepBlock, h0, hI, hpos, List.countP_append, List.countP_cons,
          isObsF, countP_comp_false]
    · by_cases hI : 0 < st.obs_check_inter <;>
        simp [stepBlock, h0, hN, hI, hpos, List.countP_append, List.countP_cons,
          isObsF, countP_comp_false]

theorem countP_stepBlock_gp (st : TrajOptimizerSetting M) (arm : R) (sdf : S)
    (sc : P) (sv : V) (gc : P) (gv : V) (i : Nat) :
    (stepBlock st arm sdf sc sv gc gv i).countP isGPF =
      if i = 0 then 0 else 1 := by
  by_cases h0 : i = 0
  · subst h0
    simp [stepBlock, List.countP_append, List.countP_cons, isGPF]
  · have hpos : 0 < i := Nat.pos_of_ne_zero h0
    by_cases hN : i = st.total_step
    · subst hN
      by_cases hI : 0 < st.obs_check_inter <;>
        simp [stepBlock, h0, hI, hpos, List.countP_append, List.countP_cons,
          isGPF, countP_comp_false]
    · by_cases hI : 0 < st.obs_check_inter <;>
        simp [stepBlock, h0, hN, hI, hpos, List.countP_append, List.countP_cons,
          isGPF, countP_comp_false]

theorem countP_stepBlock_obsGP (st : TrajOptimizerSetting M) (arm : R) (sdf : S)
    (sc : P) (sv : V) (gc : P) (gv : V) (i : Nat) :
    (stepBlock st arm sdf sc sv gc gv i).countP isObsGPF =
      if i = 0 then 0 else st.obs_check_inter := by
  by_cases h0 : i = 0
  · subst h0
    simp [stepBlock, List.countP_append, List.countP_cons, isObsGPF]
  · have hpos : 0 < i := Nat.pos_of_ne_zero h0
    by_cases hN : i = st.total_step
    · subst hN
      by_cases hI : 0 < st.obs_check_inter <;>
        simp [stepBlock, h0, hI, hpos, List.countP_append, List.countP_cons,
          isObsGPF, countP_comp_true] <;> omega
    · by_cases hI : 0 < st.obs_check_inter <;>
        simp [stepBlock, h0, hN, hI, hpos, List.countP_append, List.countP_cons,
          isObsGPF, countP_comp_true] <;> omega

theorem countP_stepBlock_priorAt0 (st : TrajOptimizerSetting M) (arm : R)
    (sdf : S) (sc : P) (sv : V) (gc : P) (gv : V) (i : Nat) :
    (stepBlock st arm sdf sc sv gc gv i).countP (isPriorAt 0) =
      if i = 0 then 2 else 0 := by
  by_cases h0 : i = 0
  · subst h0
    simp [stepBlock, List.countP_append, List.countP_cons, isPriorAt,
      isPosePriorAt, isVelPriorAt]
  · have hpos : 0 < i := Nat.pos_of_ne_zero h0
    by_cases hN : i = st.total_step
    · subst hN
      by_cases hI : 0 < st.obs_check_inter <;>
        simp [stepBlock, h0, hI, hpos, List.countP_append, List.countP_cons,
          isPriorAt, isPosePriorAt, isVelPriorAt, countP_comp_false,
          Nat.pos_iff_ne_zero]
    · by_cases hI : 0 < st.obs_check_inter <;>
        simp [stepBlock, h0, hN, hI, hpos, List.countP_append, List.countP_cons,
          isPriorAt, isPosePriorAt, isVelPriorAt, countP_comp_false,
          Nat.pos_iff_ne_zero]

theorem countP_stepBlock_priorAtN (st : TrajOptimizerSetting M) (arm : R)
    (sdf : S) (sc : P) (sv : V) (gc : P) (gv : V)
    (hN0 : st.total_step ≠ 0) (i : Nat) :
    (stepBlock st arm sdf sc sv gc gv i).countP (isPriorAt st.total_step) =
      if i = st.total_step then 2 else 0 := by
  by_cases h0 : i = 0
  · subst h0
    simp [stepBlock, List.countP_append, List.countP_cons, isPriorAt,
      isPosePriorAt, isVelPriorAt, Ne.symm hN0, hN0]
  · have hpos : 0 < i := Nat.pos_of_ne_zero h0
    by_cases hN : i = st.total_step
    · subst hN
      by_cases hI : 0 < st.obs_check_inter <;>
        simp [stepBlock, h0, hI, hpos, List.countP_append, List.countP_cons,
          isPriorAt, isPosePriorAt, isVelPriorAt, countP_comp_false]
    · by_cases hI : 0 < st.obs_check_inter <;>
        simp [stepBlock, h0, hN, hI, hpos, List.countP_append, List.countP_cons,
          isPriorAt, isPosePriorAt, isVelPriorAt, countP_comp_false]

theorem length_stepBlock (st : TrajOptimizerSetting M) (arm : R) (sdf : S)
    (sc : P) (sv : V) (gc : P) (gv : V) (i : Nat) :
    (stepBlock st arm sdf sc sv gc gv i).length =
      (if i = 0 then 2 else if i = st.total_step then 2 else 0) + 1 +
        (if 0 < i then st.obs_check_inter + 1 else 0) := by
  by_cases h0 : i = 0
  · subst h0
    simp [stepBlock]
  · have hpos : 0 < i := Nat.pos_of_ne_zero h0
    by_cases hN : i = st.total_step
    · subst hN
      by_cases hI : 0 < st.obs_check_inter <;>
        simp [stepBlock, h0, hI, hpos] <;> omega
    · by_cases hI : 0 < st.obs_check_inter <;>
        simp [stepBlock, h0, hN, hI, hpos] <;> omega

theorem flatMap_range_succ_blocks (st : TrajOptimizerSetting M) (arm : R)
    (sdf : S) (sc : P) (sv : V) (gc : P) (gv : V) (n : Nat) :
    (List.range (n + 1)).flatMap (stepBlock st arm sdf sc sv gc gv) =
      (List.range n).flatMap (stepBlock st arm sdf sc sv gc gv) ++
        stepBlock st arm sdf sc sv gc gv n := by
  rw [List.range_succ, List.flatMap_append]
  simp

theorem count_range_obs (st : TrajOptimizerSetting M) (arm : R) (sdf : S)
    (sc : P) (sv : V) (gc : P) (gv : V) :
    ∀ n, ((List.range n).flatMap
      (stepBlock st arm sdf sc sv gc gv)).countP isObsF = n := by
  intro n
  induction n with
  | zero => rfl
  | succ n ih =>
      rw [flatMap_range_succ_blocks, List.countP_append, ih,
        countP_stepBlock_obs]

theorem count_range_gp (st : TrajOptimizerSetting M) (arm : R) (sdf : S)
    (sc : P) (sv : V) (gc : P) (gv : V) :
    ∀ n, ((List.range n).flatMap
      (stepBlock st arm sdf sc sv gc gv)).countP isGPF = n - 1 := by
  intro n
  induction n with
  | zero => rfl
  | succ n ih =>
      rw [flatMap_range_succ_blocks, List.countP_append, ih,
        countP_stepBlock_gp]
      by_cases h0 : n = 0 <;> simp [h0] <;> omega

theorem count_range_obsGP (st : TrajOptimizerSetting M) (arm : R) (sdf : S)
    (sc : P) (sv : V) (gc : P) (gv : V) :
    ∀ n, ((List.range n).flatMap
      (stepBlock st arm sdf sc sv gc gv)).countP isObsGPF =
        (n - 1) * st.obs_check_inter := by
  intro n
  induction n with
  | zero => simp
  | succ n ih =>
      rw [flatMap_range_succ_blocks, List.countP_append, ih,
        countP_stepBlock_obsGP]
      rcases n with _ | m
      · simp
      · simp [Nat.succ_sub_one, Nat.succ_mul]

theorem count_range_priorAt0 (st : TrajOptimizerSetting M) (arm : R) (sdf : S)
    (sc : P) (sv : V) (gc : P) (gv : V) :
    ∀ n, ((List.range n).flatMap
      (stepBlock st arm sdf sc sv gc gv)).countP (isPriorAt 0) =
        if n = 0 then 0 else 2 := by
  intro n
  induction n with
  | zero => rfl
  | succ n ih =>
      rw [flatMap_range_succ_blocks, List.countP_append, ih,
        countP_stepBlock_priorAt0]
      by_cases h0 : n = 0 <;> simp [h0]

theorem count_range_priorAtN (st : TrajOptimizerSetting M) (arm : R) (sdf : S)
    (sc : P) (sv : V) (gc : P) (gv : V) (hN0 : st.total_step ≠ 0) :
    ∀ n, n ≤ st.total_step →
    ((List.range n).flatMap
      (stepBlock st arm sdf sc sv gc gv)).countP (isPriorAt st.total_step) =
        0 := by
  intro n
  induction n with
  | zero => intro _; rfl
  | succ n ih =>
      intro hn
      rw [flatMap_range_succ_blocks, List.countP_append, ih (by omega),
        countP_stepBlock_priorAtN st arm sdf sc sv gc gv hN0]
      have : ¬ n = st.total_step := by omega
      simp [this]

theorem length_range_blocks (st : TrajOptimizerSetting M) (arm : R) (sdf : S)
    (sc : P) (sv : V) (gc : P) (gv : V) :
    ∀ n, n ≤ st.total_step →
    ((List.range n).flatMap (stepBlock st arm sdf sc sv gc gv)).length =
      if n = 0 then 0 else 3 + (n - 1) * (st.obs_check_inter + 2) := by
  intro n
  induction n with
  | zero => intro _; rfl
  | succ n ih =>
      intro hn
      rw [flatMap_range_succ_blocks, List.length_append, ih (by omega),
        length_stepBlock]
      have hnN : ¬ n = st.total_step := by omega
      rcases n with _ | m
      · simp
      · simp [hnN, Nat.succ_sub_one, Nat.succ_mul]
        ring

/-- C4: for a positive step count, the initial build emits exactly 2
start priors (the priors at step 0), 2 goal priors (the priors at step
total_step), total_step + 1 obstacle factors, total_step GP smoothness
factors and total_step * obs_check_inter interpolated obstacle factors,
and the pending graph length equals the spec total
2 + 2 + (N+1) + N + N*obs_check_inter. -/
theorem initFactorGraph_constraint_counts (st : TrajOptimizerSetting M)
    (arm : R) (sdf : S) (sc : P) (sv : V) (gc : P) (gv : V)
    (h : 1 ≤ st.total_step) :
    ((mkNew arm sdf st).initFactorGraph sc sv gc gv).inc_graph_.countP
        (isPriorAt 0) = 2 ∧
    ((mkNew arm sdf st).initFactorGraph sc sv gc gv).inc_graph_.countP
        (isPriorAt st.total_step) = 2 ∧
    ((mkNew arm sdf st).initFactorGraph sc sv gc gv).inc_graph_.countP
        isObsF = st.total_step + 1 ∧
    ((mkNew arm sdf st).initFactorGraph sc sv gc gv).inc_graph_.countP
        isGPF = st.total_step ∧
    ((mkNew arm sdf st).initFactorGraph sc sv gc gv).inc_graph_.countP
        isObsGPF = st.total_step * st.obs_check_inter ∧
    ((mkNew arm sdf st).initFactorGraph sc sv gc gv).inc_graph_.length =
      2 + 2 + (st.total_step + 1) + st.total_step +
        st.total_step * st.obs_check_inter := by
  have hN0 : st.total_step ≠ 0 := by omega
  have hb := initFactorGraph_built st arm sdf sc sv gc gv h
  rw [hb.1]
  obtain ⟨m, hm⟩ : ∃ m, st.total_step = m + 1 := ⟨st.total_step - 1, by omega⟩
  refine ⟨?_, ?_, ?_, ?_, ?_, ?_⟩
  · rw [List.countP_append, count_range_priorAt0, countP_stepBlock_priorAt0]
    simp [hN0]
  · rw [List.countP_append,
      count_range_priorAtN st arm sdf sc sv gc gv hN0 _ (le_refl _),
      countP_stepBlock_priorAtN st arm sdf sc sv gc gv hN0]
    simp
  · rw [List.countP_append, count_range_obs, countP_stepBlock_obs]
  · rw [List.countP_append, count_range_gp, countP_stepBlock_gp]
    simp [hN0]
    omega
  · rw [List.countP_append, count_range_obsGP, countP_stepBlock_obsGP]
    simp [hN0]
    rw [hm]
    simp [Nat.succ_sub_one, Nat.succ_mul]
  · rw [List.length_append,
      length_range_blocks st arm sdf sc sv gc gv _ (le_refl _),
      length_stepBlock]
    simp [hN0, Nat.pos_iff_ne_zero]
    rw [hm]
    simp [Nat.succ_sub_one]
    ring

/-- Witness for C4 at the concrete two-step setting with one
interpolated check. -/
theorem initFactorGraph_constraint_counts_witness :
    (1 ≤ twoSetting.total_step) ∧
    (((mkNew () () twoSetting).initFactorGraph () () () ()).inc_graph_.countP
        (isPriorAt 0) = 2 ∧
    ((mkNew () () twoSetting).initFactorGraph () () () ()).inc_graph_.countP
        (isPriorAt twoSetting.total_step) = 2 ∧
    ((mkNew () () twoSetting).initFactorGraph () () () ()).inc_graph_.countP
        isObsF = twoSetting.total_step + 1 ∧
    ((mkNew () () twoSetting).initFactorGraph () () () ()).inc_graph_.countP
        isGPF = twoSetting.total_step ∧
    ((mkNew () () twoSetting).initFactorGraph () () () ()).inc_graph_.countP
        isObsGPF = twoSetting.total_step * twoSetting.obs_check_inter ∧
    ((mkNew () () twoSetting).initFactorGraph () () () ()).inc_graph_.length =
      2 + 2 + (twoSetting.total_step + 1) + twoSetting.total_step +
        twoSetting.total_step * twoSetting.obs_check_inter) :=
  ⟨by decide, initFactorGraph_constraint_counts twoSetting () () () () () ()
    (by decide)⟩

/-- Witness for the amended C3: a disciplined concrete interleaving
(update, changeGoal, update, changeGoal) from the built one-step
trajectory. -/
theorem disciplined_removals_reference_committed_witness :
    committedOnly false
      ([Op.doUpdate, Op.changeGoal () (), Op.doUpdate, Op.changeGoal () ()] :
        List (Op Unit Unit)) = true ∧
    ∀ i ∈ (run estNil ((mkNew () () unitSetting).initFactorGraph () () () ())
        [Op.doUpdate, Op.changeGoal () (), Op.doUpdate, Op.changeGoal () ()]).removed_factor_index_,
      i < (run estNil ((mkNew () () unitSetting).initFactorGraph () () () ())
        [Op.doUpdate, Op.changeGoal () (), Op.doUpdate, Op.changeGoal () ()]).isam_.length :=
  ⟨by decide, disciplined_removals_reference_committed estNil unitSetting () () () () () ()
    [Op.doUpdate, Op.changeGoal () (), Op.doUpdate, Op.changeGoal () ()] (by decide)⟩

/- Position lemmas for the goal priors inside the freshly built graph. -/

theorem findIdx_append_false {A : Type} (p : A → Bool) :
    ∀ (l1 l2 : List A), (∀ a ∈ l1, p a = false) →
    (l1 ++ l2).findIdx p = l1.length + l2.findIdx p := by
  intro l1
  induction l1 with
  | nil => intro l2 _; simp
  | cons a l ih =>
      intro l2 h
      have ha : p a = false := h a (List.mem_cons_self a l)
      rw [List.cons_append, List.findIdx_cons, ha]
      simp only [cond_false]
      rw [ih l2 (fun b hb => h b (List.mem_cons_of_mem a hb))]
      simp
      omega

theorem stepBlock_no_goal_prior (st : TrajOptimizerSetting M) (arm : R)
    (sdf : S) (sc : P) (sv : V) (gc : P) (gv : V) (i : Nat)
    (hi : i < st.total_step) :
    ∀ f ∈ stepBlock st arm sdf sc sv gc gv i,
      isPosePriorAt st.total_step f = false ∧
      isVelPriorAt st.total_step f = false := by
  intro f hf
  by_cases h0 : i = 0
  · subst h0
    simp [stepBlock] at hf
    have hne : (0 : Nat) ≠ st.total_step := by omega
    rcases hf with rfl | rfl | rfl <;>
      simp [isPosePriorAt, isVelPriorAt, hne]
  · have hpos : 0 < i := Nat.pos_of_ne_zero h0
    have hN : ¬ i = st.total_step := by omega
    by_cases hI : 0 < st.obs_check_inter
    · simp [stepBlock, h0, hN, hpos, hI] at hf
      rcases hf with rfl | hf | rfl
      · simp [isPosePriorAt, isVelPriorAt]
      · obtain ⟨j, _, rfl⟩ := hf
        simp [isPosePriorAt, isVelPriorAt]
      · simp [isPosePriorAt, isVelPriorAt]
    · simp [stepBlock, h0, hN, hpos, hI] at hf
      rcases hf with rfl | rfl <;> simp [isPosePriorAt, isVelPriorAt]

/-- C8: for a positive step count and a freshly constructed optimizer,
the initial build leaves the cached goal-pose and goal-velocity factor
indices exactly at the positions of the goal pose and goal velocity
priors within the emitted pending graph: the cached index is the first
index whose factor is a pose (resp. velocity) prior keyed at the goal
step, and the factor stored at each cached index is precisely the goal
prior that was emitted. -/
theorem initFactorGraph_caches_goal_positions (st : TrajOptimizerSetting M)
    (arm : R) (sdf : S) (sc : P) (sv : V) (gc : P) (gv : V)
    (h : 1 ≤ st.total_step) :
    ((mkNew arm sdf st).initFactorGraph sc sv gc gv).inc_graph_.findIdx
        (isPosePriorAt st.total_step) =
      ((mkNew arm sdf st).initFactorGraph sc sv gc gv).goal_conf_factor_idx_ ∧
    ((mkNew arm sdf st).initFactorGraph sc sv gc gv).inc_graph_.findIdx
        (isVelPriorAt st.total_step) =
      ((mkNew arm sdf st).initFactorGraph sc sv gc gv).goal_vel_factor_idx_ ∧
    ((mkNew arm sdf st).initFactorGraph sc sv gc gv).inc_graph_.get?
        ((mkNew arm sdf st).initFactorGraph sc sv gc gv).goal_conf_factor_idx_ =
      some (Factor.priorPose (Key.x st.total_step) gc st.conf_prior_model) ∧
    ((mkNew arm sdf st).initFactorGraph sc sv gc gv).inc_graph_.get?
        ((mkNew arm sdf st).initFactorGraph sc sv gc gv).goal_vel_factor_idx_ =
      some (Factor.priorVel (Key.v st.total_step) gv st.vel_prior_model) := by
  have hN0 : st.total_step ≠ 0 := by omega
  have hb := initFactorGraph_built st arm sdf sc sv gc gv h
  have hblock := stepBlock_goal st arm sdf sc sv gc gv st.total_step hN0 rfl
  have hnog : ∀ f ∈ (List.range st.total_step).flatMap
      (stepBlock st arm sdf sc sv gc gv),
      isPosePriorAt st.total_step f = false ∧
      isVelPriorAt st.total_step f = false := by
    intro f hf
    obtain ⟨i, hi, hfi⟩ := List.mem_flatMap.mp hf
    exact stepBlock_no_goal_prior st arm sdf sc sv gc gv i
      (List.mem_range.mp hi) f hfi
  refine ⟨?_, ?_, ?_, ?_⟩
  · rw [hb.1, findIdx_append_false _ _ _ (fun a ha => (hnog a ha).1), hblock,
      hb.2.1]
    simp [List.findIdx_cons, isPosePriorAt]
  · rw [hb.1, findIdx_append_false _ _ _ (fun a ha => (hnog a ha).2), hblock,
      hb.2.2]
    simp [List.findIdx_cons, isVelPriorAt, isPosePriorAt]
  · rw [hb.1, hb.2.1, List.get?_append_right (le_refl _), Nat.sub_self, hblock]
    rfl
  · rw [hb.1, hb.2.2, List.get?_append_right (by omega), hblock]
    have : ((List.range st.total_step).flatMap
        (stepBlock st arm sdf sc sv gc gv)).length + 1 -
        ((List.range st.total_step).flatMap
          (stepBlock st arm sdf sc sv gc gv)).length = 1 := by omega
    rw [this]
    rfl

/-- Witness for C8 at the concrete one-step built state. -/
theorem initFactorGraph_caches_goal_positions_witness :
    (1 ≤ unitSetting.total_step) ∧
    (((mkNew () () unitSetting).initFactorGraph () () () ()).inc_graph_.findIdx
        (isPosePriorAt unitSetting.total_step) =
      ((mkNew () () unitSetting).initFactorGraph () () () ()).goal_conf_factor_idx_ ∧
    ((mkNew () () unitSetting).initFactorGraph () () () ()).inc_graph_.findIdx
        (isVelPriorAt unitSetting.total_step) =
      ((mkNew () () unitSetting).initFactorGraph () () () ()).goal_vel_factor_idx_ ∧
    ((mkNew () () unitSetting).initFactorGraph () () () ()).inc_graph_.get?
        ((mkNew () () unitSetting).initFactorGraph () () () ()).goal_conf_factor_idx_ =
      some (Factor.priorPose (Key.x unitSetting.total_step) ()
        unitSetting.conf_prior_model) ∧
    ((mkNew () () unitSetting).initFactorGraph () () () ()).inc_graph_.get?
        ((mkNew () () unitSetting).initFactorGraph () () () ()).goal_vel_factor_idx_ =
      some (Factor.priorVel (Key.v unitSetting.total_step) ()
        unitSetting.vel_prior_model)) :=
  ⟨by decide, initFactorGraph_caches_goal_positions unitSetting () () () () () ()
    (by decide)⟩

end ISAM2TrajOptimizer

end GPMP2
